import Mathlib

/-!
Shallow embedding of the market-data enrichment pipeline of
`haysung1191/investment-app` (files `src/lib/kis.ts` and
`src/lib/analysis.ts`), together with theorems settling the
specification claims about it.

Modelling conventions:
* JavaScript numbers are modelled as `ℚ` (the code never relies on
  float rounding for the properties at stake); `undefined` is `Option`.
* Times (`Date.now()` and TTLs) are milliseconds, modelled as `ℚ`.
* Network I/O is modelled by oracle environments: a function from the
  request's key to the already-parsed response payload.  Payload fields
  that the code routes through `parseNumber` appear as `Option ℚ`
  (the parse result), string fields as `String` / `Option String`.
* Process-wide mutable state (caches, token, in-flight promise) is
  passed explicitly; async scheduling is modelled by explicit step
  functions described at each definition.
-/

/-! ## JavaScript primitives -/

/-- Floor of a rational, computed as Euclidean division of the numerator
by the (positive) denominator. -/
def ratFloor (q : ℚ) : ℤ := Int.ediv q.num q.den

/-- JavaScript `Math.round`: round half up, i.e. `⌊x + 0.5⌋`. -/
def jsRound (q : ℚ) : ℤ := ratFloor (q + 1/2)

/-- Whitespace characters recognised by JavaScript `\s` / `trim`
(ASCII part; the inputs at stake contain only ASCII whitespace). -/
def isJsSpace (c : Char) : Bool :=
  c = ' ' || c = '\t' || c = '\n' || c = '\r' || c = '\x0b' || c = '\x0c'

/-- Drop leading and trailing whitespace from a character list
(JavaScript `String.prototype.trim`). -/
def jsTrimChars (l : List Char) : List Char :=
  ((l.dropWhile isJsSpace).reverse.dropWhile isJsSpace).reverse

/-- JavaScript `String.prototype.trim`. -/
def jsTrim (s : String) : String := ⟨jsTrimChars s.data⟩

/-- JavaScript `String.prototype.toUpperCase`.  The tickers and names at
stake are ASCII (Korean characters have no case), so `Char.toUpper`
agrees with the JS behaviour on them. -/
def jsToUpper (s : String) : String := ⟨s.data.map Char.toUpper⟩

/-- Lexicographic comparison of character lists, the order JavaScript
`String.prototype.localeCompare` induces on the all-digit `YYYYMMDD`
date strings compared in `fetchDomesticDailyBars`. -/
def lexLe : List Char → List Char → Bool
  | [], _ => true
  | _ :: _, [] => false
  | a :: as, b :: bs => if a = b then lexLe as bs else decide (a < b)

/-- Date comparison used when sorting daily bars. -/
def dateLe (a b : String) : Bool := lexLe a.data b.data

/-! ## `kis.ts`: ticker normalisation -/

/-- `normalizeTicker` (kis.ts:33–39): trim, uppercase, and zero-pad a
string of 1–6 digits to 6 digits. -/
def normalizeTicker (ticker : String) : String :=
  let clean := jsToUpper (jsTrim ticker)
  if 1 ≤ clean.data.length ∧ clean.data.length ≤ 6 ∧ clean.data.all Char.isDigit then
    ⟨List.replicate (6 - clean.data.length) '0' ++ clean.data⟩
  else clean

/-- `isKrTicker` (kis.ts:41): exactly six ASCII digits. -/
def isKrTicker (ticker : String) : Bool :=
  ticker.data.length = 6 && ticker.data.all Char.isDigit

/-! ## `kis.ts`: data model -/

/-- One daily price bar (kis.ts:240–247). -/
structure DailyBar where
  date : String
  «open» : ℚ
  high : ℚ
  low : ℚ
  close : ℚ
  volume : ℚ
  deriving DecidableEq, Repr

/-- The `fundamentals` component of a `Quote` (types.ts). -/
structure Fundamentals where
  roe : Option ℚ
  eps : Option ℚ
  bps : Option ℚ
  deriving DecidableEq, Repr

/-- The `technical` component of a `Quote` (types.ts): the value
returned by `computeMarketScore`. -/
structure Technical where
  marketScore : ℤ
  rsi : Option ℚ
  ma20 : Option ℚ
  ma60 : Option ℚ
  volRatio : Option ℚ
  atrPct : Option ℚ
  deriving DecidableEq, Repr

/-- A per-ticker result (types.ts `Quote`); absent optional fields are
`none`. -/
structure Quote where
  ticker : String
  price : Option ℚ := none
  changePercent : Option ℚ := none
  volume : Option ℚ := none
  fundamentals : Option Fundamentals := none
  technical : Option Technical := none
  note : Option String := none
  deriving DecidableEq, Repr

/-! ## `kis.ts`: indicator engine -/

/-- `sma` (kis.ts:296–301): mean of the last `period` values, undefined
when fewer than `period` values exist.  `values.slice(len - period)` is
`List.drop (len - period)`. -/
def sma (values : List ℚ) (period : ℕ) : Option ℚ :=
  if values.length < period then none
  else some ((values.drop (values.length - period)).sum / period)

/-- Adjacent differences `l[i+1] - l[i]` of a list. -/
def jsDiffs : List ℚ → List ℚ
  | a :: b :: rest => (b - a) :: jsDiffs (b :: rest)
  | _ => []

/-- The last 14 day-over-day changes `closes[i] - closes[i-1]`
(`i` from `len-14` to `len-1`), i.e. the adjacent differences of the
last 15 closes — the exact values the loop of `computeRsi14`
(kis.ts:307–311) iterates over. -/
def lastChanges (closes : List ℚ) : List ℚ :=
  jsDiffs (closes.drop (closes.length - 15))

/-- `computeRsi14` (kis.ts:303–317).  Gains accumulate changes `≥ 0`,
losses accumulate the absolute value of negative changes; if the
average loss is exactly 0 the RSI is 100. -/
def computeRsi14 (closes : List ℚ) : Option ℚ :=
  if closes.length < 15 then none
  else
    let changes := lastChanges closes
    let gains := (changes.map (fun c => if 0 ≤ c then c else 0)).sum
    let losses := (changes.map (fun c => if c < 0 then -c else 0)).sum
    let avgGain := gains / 14
    let avgLoss := losses / 14
    if avgLoss = 0 then some 100
    else some (100 - 100 / (1 + avgGain / avgLoss))

/-- True range of `bar` against `prevClose` (kis.ts:326–330). -/
def trueRange (bar : DailyBar) (prevClose : ℚ) : ℚ :=
  max (bar.high - bar.low) (max |bar.high - prevClose| |bar.low - prevClose|)

/-- Sum of true ranges over a window, the first bar using its own close
as previous close (the `i === 0` case of the loop, kis.ts:323–332). -/
def trSum : List DailyBar → ℚ
  | [] => 0
  | b :: rest => trueRange b b.close + trSumFrom b.close rest
where
  trSumFrom (prevClose : ℚ) : List DailyBar → ℚ
  | [] => 0
  | b :: rest => trueRange b prevClose + trSumFrom b.close rest

/-- `computeAtrPct` (kis.ts:319–336): mean true range of the last 14
bars divided by the last close (`close || 1` replaces a zero close by
1). -/
def computeAtrPct (bars : List DailyBar) : Option ℚ :=
  if bars.length < 15 then none
  else
    let recent := bars.drop (bars.length - 14)
    let atr := trSum recent / recent.length
    let lastRaw := (bars.getLastD ⟨"", 0, 0, 0, 0, 0⟩).close
    let lastClose := if lastRaw = 0 then 1 else lastRaw
    some (atr / lastClose)

/-- First `scoreTrend` term (kis.ts:348): `lastClose > ma20 ? 5 : -5`
when MA20 is defined. -/
def trendScoreMa20 (lastClose : ℚ) : Option ℚ → ℚ
  | some m => if m < lastClose then 5 else -5
  | none => 0

/-- Second `scoreTrend` term (kis.ts:349–351): `ma20 > ma60 ? 5 : -5`
when both are defined. -/
def trendScoreCross : Option ℚ → Option ℚ → ℚ
  | some m20, some m60 => if m60 < m20 then 5 else -5
  | _, _ => 0

/-- The `scoreTrend` accumulation of `computeMarketScore`
(kis.ts:347–351): ±5 for last close vs MA20, ±5 for MA20 vs MA60, each
term only when its inputs are defined. -/
def trendScore (lastClose : ℚ) (ma20 ma60 : Option ℚ) : ℚ :=
  trendScoreMa20 lastClose ma20 + trendScoreCross ma20 ma60

/-- The `scoreMomentum` computation (kis.ts:353–357): 10-day return
times 50, clamped to [-20, 20]. -/
def momentumScore (closes : List ℚ) (lastClose : ℚ) : ℚ :=
  let change10 :=
    if 11 ≤ closes.length then
      (lastClose - closes.getD (closes.length - 11) 0) / closes.getD (closes.length - 11) 0
    else 0
  max (-20) (min 20 (change10 * 50))

/-- `avg3` of `computeMarketScore` (kis.ts:360–363). -/
def avgVolume3 (volumes : List ℚ) : Option ℚ :=
  if 3 ≤ volumes.length then some ((volumes.drop (volumes.length - 3)).sum / 3) else none

/-- `avg20` of `computeMarketScore` (kis.ts:364–367). -/
def avgVolume20 (volumes : List ℚ) : Option ℚ :=
  if 20 ≤ volumes.length then some ((volumes.drop (volumes.length - 20)).sum / 20) else none

/-- `volRatio = avg3 && avg20 ? avg3 / avg20 : undefined`
(kis.ts:368): JavaScript truthiness makes the ratio undefined when
either average is 0 or undefined. -/
def volRatioOf (volumes : List ℚ) : Option ℚ :=
  match avgVolume3 volumes, avgVolume20 volumes with
  | some a3, some a20 => if a3 ≠ 0 ∧ a20 ≠ 0 then some (a3 / a20) else none
  | _, _ => none

/-- `scoreVolume` (kis.ts:369–374). -/
def volumeScore (volRatio : Option ℚ) : ℚ :=
  match volRatio with
  | none => 0
  | some r => if 2 < r then 10 else if (3 : ℚ)/2 < r then 6 else if r < 1/2 then -6 else 0

/-- `scoreRsi` (kis.ts:376–380). -/
def rsiPenalty (rsi : Option ℚ) : ℚ :=
  match rsi with
  | none => 0
  | some r => if 75 < r then -7 else if r < 25 then -6 else 0

/-- `scoreVolatility` (kis.ts:382–386). -/
def volatilityPenalty (atrPct : Option ℚ) : ℚ :=
  match atrPct with
  | none => 0
  | some a => if 1/10 < a then -7 else if 7/100 < a then -4 else 0

/-- `computeMarketScore` (kis.ts:338–399).  Below 60 bars it returns
the degraded default `{ marketScore: 50 }` with every indicator field
absent; otherwise the composite score
`round(((raw + 30) / 60) * 100)` clamped to [0, 100], with all
indicator fields attached. -/
def computeMarketScore (bars : List DailyBar) : Technical :=
  if bars.length < 60 then
    { marketScore := 50, rsi := none, ma20 := none, ma60 := none
      volRatio := none, atrPct := none }
  else
    let closes := bars.map (fun b => b.close)
    let ma20 := sma closes 20
    let ma60 := sma closes 60
    let lastClose := closes.getD (closes.length - 1) 0
    let rsi := computeRsi14 closes
    let atrPct := computeAtrPct bars
    let volRatio := volRatioOf (bars.map (fun b => b.volume))
    let raw := trendScore lastClose ma20 ma60 + momentumScore closes lastClose
      + volumeScore volRatio + rsiPenalty rsi + volatilityPenalty atrPct
    { marketScore := max 0 (min 100 (jsRound ((raw + 30) / 60 * 100)))
      rsi := rsi, ma20 := ma20, ma60 := ma60, volRatio := volRatio, atrPct := atrPct }

/-- The `technical` attachment in `fetchQuotes` (kis.ts:495–496):
`dailyBars.length >= 20 ? computeMarketScore(dailyBars) : undefined`. -/
def attachTechnical (dailyBars : List DailyBar) : Option Technical :=
  if 20 ≤ dailyBars.length then some (computeMarketScore dailyBars) else none

/-! ## `kis.ts`: domestic spot-quote fetch and its cache -/

/-- JavaScript `v || dflt` on an optional string: `undefined` and the
empty string are falsy. -/
def jsOrString (v : Option String) (dflt : String) : String :=
  match v with
  | some s => if s = "" then dflt else s
  | none => dflt

/-- The parsed response of the domestic spot-quote endpoint: `rt_cd`,
`msg1`, and the `output` price fields already run through
`parseNumber`. -/
structure SpotPayload where
  rtCd : String
  msg1 : Option String
  stck_prpr : Option ℚ
  prdy_ctrt : Option ℚ
  acml_vol : Option ℚ

/-- The module-level `quoteCache` (kis.ts:23): normalized ticker to
cached `Quote` plus absolute expiry (ms). -/
def QuoteCache : Type := String → Option (Quote × ℚ)

def QUOTE_TTL_MS : ℚ := 20000

/-- `quoteCache.set` as a functional update. -/
def cacheInsert (cache : QuoteCache) (key : String) (entry : Quote × ℚ) : QuoteCache :=
  fun k => if k = key then some entry else cache k

/-- The cache-miss path of `fetchDomesticQuote` (kis.ts:164–195):
`env` is the already-parsed endpoint response for the ticker, `t` is
`Date.now()`.  Returns the quote, the updated cache, and the number of
endpoint calls made.  A non-success `rt_cd` yields a ticker+note quote
and leaves the cache untouched; success caches under the short TTL. -/
def fetchDomesticQuoteFresh (env : String → SpotPayload) (t : ℚ) (cache : QuoteCache)
    (ticker : String) : Quote × QuoteCache × ℕ :=
  let payload := env ticker
  if payload.rtCd ≠ "0" then
    ({ ticker := ticker, note := some (jsOrString payload.msg1 "Domestic quote failed") },
      cache, 1)
  else
    let quote : Quote :=
      { ticker := ticker, price := payload.stck_prpr
        changePercent := payload.prdy_ctrt, volume := payload.acml_vol }
    (quote, cacheInsert cache ticker (quote, t + QUOTE_TTL_MS), 1)

/-- `fetchDomesticQuote` (kis.ts:158–196): serve from the cache while
`expiresAt > now()`, otherwise hit the endpoint. -/
def fetchDomesticQuote (env : String → SpotPayload) (t : ℚ) (cache : QuoteCache)
    (ticker : String) : Quote × QuoteCache × ℕ :=
  match cache ticker with
  | some (data, expiresAt) =>
    if t < expiresAt then (data, cache, 0)
    else fetchDomesticQuoteFresh env t cache ticker
  | none => fetchDomesticQuoteFresh env t cache ticker

/-! ## `kis.ts`: daily bars -/

/-- One raw row of the daily-bars response `output2`; numeric fields
are the `parseNumber` results. -/
structure BarRow where
  stck_bsop_date : Option String
  stck_oprc : Option ℚ
  stck_hgpr : Option ℚ
  stck_lwpr : Option ℚ
  stck_clpr : Option ℚ
  acml_vol : Option ℚ

/-- The row-to-bar map of `fetchDomesticDailyBars` (kis.ts:282–289):
`String(row.stck_bsop_date || "")` and `parseNumber(...) ?? 0`. -/
def rowToBar (row : BarRow) : DailyBar :=
  { date := jsOrString row.stck_bsop_date ""
    «open» := row.stck_oprc.getD 0
    high := row.stck_hgpr.getD 0
    low := row.stck_lwpr.getD 0
    close := row.stck_clpr.getD 0
    volume := row.acml_vol.getD 0 }

/-- The parsed daily-bars response. -/
structure BarsPayload where
  rtCd : String
  output2 : List BarRow

/-- Ordered insertion used to model the JS comparison sort. -/
def insertByDate (b : DailyBar) : List DailyBar → List DailyBar
  | [] => [b]
  | x :: xs => if dateLe b.date x.date then b :: x :: xs else x :: insertByDate b xs

/-- `.sort((a, b) => a.date.localeCompare(b.date))` (kis.ts:291),
modelled as insertion sort by `dateLe`; it produces a list sorted by
date containing exactly the input bars. -/
def sortByDate : List DailyBar → List DailyBar
  | [] => []
  | x :: xs => insertByDate x (sortByDate xs)

/-- The response-processing part of `fetchDomesticDailyBars`
(kis.ts:275–293): non-success status yields `[]`; otherwise map rows to
bars, keep those with a truthy date and positive close, and sort by
date. -/
def fetchDomesticDailyBars (payload : BarsPayload) : List DailyBar :=
  if payload.rtCd ≠ "0" then []
  else
    sortByDate ((payload.output2.map rowToBar).filter
      (fun bar => !decide (bar.date = "") && decide (0 < bar.close)))

/-! ## `kis.ts`: concurrency scheduler -/

/-- Number of rejecting tasks. -/
def countErrors {E T : Type} : List (Except E T) → ℕ
  | [] => 0
  | .ok _ :: rest => countErrors rest
  | .error _ :: rest => countErrors rest + 1

/-- Deterministic abstraction of the worker pool of
`runWithConcurrency` (kis.ts:457–471) applied to settled task
outcomes: the per-index assignment map, one entry per task index.
Workers claim indices in ascending order
(`const current = index; index += 1`).  A task value is written to its
slot (`results[current] = await tasks[current]()`); a rejecting task
writes nothing and permanently removes the worker that ran it (the
rejection is only absorbed by `Promise.allSettled`, there is no
catch-and-reassign).  `alive` counts the remaining workers: once it
reaches 0, no slot after that point is ever claimed.  For pure task
outcomes the final slot contents are interleaving-independent: slot
`i` is assigned iff task `i` succeeds and fewer than `alive₀` errors
precede it.  `none` marks a never-assigned index; `jsArray` below
turns this map into the actual JS array. -/
def scheduleTasks {E T : Type} : List (Except E T) → ℕ → List (Option T)
  | [], _ => []
  | task :: rest, alive =>
    if alive = 0 then none :: scheduleTasks rest 0
    else
      match task with
      | .ok v => some v :: scheduleTasks rest alive
      | .error _ => none :: scheduleTasks rest (alive - 1)

/-- The JS array built by index assignment from an assignment map:
`results.length` is one past the largest assigned index, so trailing
never-assigned slots do not exist in the array at all, while interior
never-assigned slots read as `undefined` (`none`).  Modelled by
dropping the trailing `none` entries. -/
def jsArray {T : Type} (slots : List (Option T)) : List (Option T) :=
  ((slots.reverse.dropWhile (fun slot => slot.isNone)).reverse)

/-- `runWithConcurrency` (kis.ts:457–471): `Math.min(limit,
tasks.length)` workers over the shared index cursor; the returned list
is the JS `results` array — in particular, when a trailing task's slot
is never assigned the array is shorter than `tasks`. -/
def runWithConcurrency {E T : Type} (tasks : List (Except E T)) (limit : ℕ) : List (Option T) :=
  jsArray (scheduleTasks tasks (min limit tasks.length))

/-! ## `kis.ts`: batch fetch -/

/-- Oracle for the per-ticker sub-fetches of `fetchQuotes`, keyed by the
normalized ticker: `thrown n = some msg` models a rejection escaping
one of the awaited sub-calls (e.g. `getAccessToken` failing with an
error of message `msg`), caught by the task's catch-all; the other
fields are the settled results of `fetchDomesticQuote`,
`fetchDomesticFinancials`, `fetchDomesticDailyBars` and
`fetchOverseasQuote`. -/
structure FetchEnv where
  thrown : String → Option String
  domestic : String → Quote
  financials : String → Option Fundamentals
  dailyBars : String → List DailyBar
  overseas : String → Quote

/-- An original/normalized ticker pair (kis.ts:483–486). -/
structure TickerPair where
  original : String
  normalized : String

/-- The per-ticker task body of `fetchQuotes` (kis.ts:487–515),
including its catch-all conversion
`{ ticker: pair.original, note: error?.message || "KIS request error" }`.
Total: every outcome is a `Quote`. -/
def fetchOne (env : FetchEnv) (pair : TickerPair) : Quote :=
  match env.thrown pair.normalized with
  | some msg =>
    { ticker := pair.original, note := some (jsOrString (some msg) "KIS request error") }
  | none =>
    if isKrTicker pair.normalized then
      let quote := env.domestic pair.normalized
      { quote with
          fundamentals := env.financials pair.normalized
          technical := attachTechnical (env.dailyBars pair.normalized)
          ticker := pair.original }
    else
      { env.overseas pair.normalized with ticker := pair.original }

/-- `fetchQuotes` (kis.ts:473–518).  `configured` is `isConfigured()`.
The result models the JS array of Quotes (`none` would be an
unassigned slot; the tasks built here are total, hence `Except.ok`). -/
def fetchQuotes (env : FetchEnv) (configured : Bool) (tickers : List String) :
    List (Option Quote) :=
  if tickers.length = 0 then []
  else if !configured then
    tickers.map (fun ticker => some { ticker := ticker, note := some "KIS API keys not configured" })
  else
    runWithConcurrency
      (tickers.map (fun ticker =>
        (Except.ok (fetchOne env ⟨ticker, normalizeTicker ticker⟩) : Except String Quote)))
      2

/-! ## `kis.ts`: credential manager

`getAccessToken` (kis.ts:75–132) keeps a module-level `cachedToken` and
a module-level `tokenInFlight` promise.  The synchronous prefix of a
call — the cache-validity check, the in-flight check, and (when
starting a refresh) the assignment of the new in-flight promise — runs
without any intervening `await`, so concurrent callers observe it as
one atomic step, modelled by `enterStep`.  The token endpoint retry
loop inside the in-flight promise is modelled by `runTokenAttempts`,
and the settlement of the promise (which also clears `tokenInFlight`
via the creator's `finally`) by `resolveStep`. -/

/-- The module-level `cachedToken` entry (kis.ts:16–19). -/
structure TokenCacheEntry where
  token : String
  expiresAt : ℚ
  deriving DecidableEq, Repr

/-- The shared state of the credential manager: cached token, identity
of the in-flight refresh (if any), a counter supplying fresh flight
identities, and the running count of refresh flights started. -/
structure MgrState where
  cachedToken : Option TokenCacheEntry
  inFlightId : Option ℕ
  nextFlightId : ℕ
  flightsStarted : ℕ
  deriving DecidableEq, Repr

/-- What a caller's synchronous prefix yields: the cached token
immediately (no I/O at all), or the identity of the refresh flight it
awaits. -/
inductive EnterResult where
  | immediate (token : String)
  | joined (flightId : ℕ)
  deriving DecidableEq, Repr

/-- The `tokenInFlight` check and assignment (kis.ts:80–125): join the
existing flight, or create the new one and become its owner. -/
def startOrJoinToken (s : MgrState) : MgrState × EnterResult :=
  match s.inFlightId with
  | some f => (s, .joined f)
  | none =>
    ({ s with
        inFlightId := some s.nextFlightId
        nextFlightId := s.nextFlightId + 1
        flightsStarted := s.flightsStarted + 1 },
      .joined s.nextFlightId)

/-- The atomic synchronous prefix of `getAccessToken` (kis.ts:76–125)
at time `t`: serve a cached token with `expiresAt > now()`, else join
or start the refresh flight. -/
def enterStep (t : ℚ) (s : MgrState) : MgrState × EnterResult :=
  match s.cachedToken with
  | some c => if t < c.expiresAt then (s, .immediate c.token) else startOrJoinToken s
  | none => startOrJoinToken s

/-- One response of the token endpoint: HTTP success carrying the
(optional) `access_token` and numeric `expires_in`, or a non-success
response. -/
inductive TokenResp where
  | ok (accessToken : Option String) (expiresIn : Option ℚ)
  | err

/-- TTL computation on success (kis.ts:107–111): `expires_in` seconds
when finite and positive, else the 23-hour fallback; `?? 0` makes an
absent field non-positive. -/
def ttlMsOf (expiresIn : Option ℚ) : ℚ :=
  match expiresIn with
  | some e => if 0 < e then e * 1000 else 23 * 60 * 60 * 1000
  | none => 23 * 60 * 60 * 1000

/-- The body of the in-flight promise (kis.ts:84–125): up to two
attempts against the token endpoint (`env k` is attempt `k`'s
response), returning the refreshed cache entry or the final error,
together with the number of endpoint calls actually made.  A success
caches `now + ttl - 60s`. -/
def runTokenAttempts (env : ℕ → TokenResp) (t : ℚ) : Except String TokenCacheEntry × ℕ :=
  match env 0 with
  | .ok (some token) expiresIn => (.ok ⟨token, t + ttlMsOf expiresIn - 60000⟩, 1)
  | _ =>
    match env 1 with
    | .ok (some token) expiresIn => (.ok ⟨token, t + ttlMsOf expiresIn - 60000⟩, 2)
    | .ok none _ => (.error "KIS token response missing access_token", 2)
    | .err => (.error "KIS token request failed", 2)

/-- Settlement of the in-flight refresh (`env f` are the endpoint
responses of flight `f`): on success the token is cached before the
promise resolves; the creator's `finally` clears `tokenInFlight`.
Every caller that joined flight `f` receives the returned outcome.
Returns `none` when no refresh is in flight. -/
def resolveStep (env : ℕ → ℕ → TokenResp) (t : ℚ) (s : MgrState) :
    MgrState × Option (Except String TokenCacheEntry × ℕ) :=
  match s.inFlightId with
  | none => (s, none)
  | some f =>
    let r := runTokenAttempts (env f) t
    ({ s with
        inFlightId := none
        cachedToken := match r.1 with | .ok e => some e | .error _ => s.cachedToken },
      some r)

/-- `n` callers whose synchronous prefixes all run (in some order)
before the refresh settles: the state threads through, the per-caller
results are collected in order. -/
def iterEnters (t : ℚ) (s : MgrState) : ℕ → MgrState × List EnterResult
  | 0 => (s, [])
  | n + 1 =>
    let (s1, r) := enterStep t s
    let (s2, rs) := iterEnters t s1 n
    (s2, r :: rs)

/-! ## `analysis.ts`: candidate verifier -/

/-- A stock candidate (types.ts `Candidate`); `market` is one of
`"KR"`, `"US"`, `"UNKNOWN"`. -/
structure Candidate where
  ticker : String
  name : String
  market : String
  rationale : String
  score : ℚ
  confidence : ℚ
  verified : Bool
  stageTag : Option String
  stageReason : Option String
  deriving DecidableEq, Repr

/-- Characters stripped by `normalizeName` (analysis.ts:139–143):
the regex `[\s()\[\].\-·]`. -/
def isStrippedChar (c : Char) : Bool :=
  isJsSpace c || c = '(' || c = ')' || c = '[' || c = ']' || c = '.' || c = '-' || c = '·'

/-- `normalizeName` (analysis.ts:139–143): uppercase, remove the
stripped characters, trim. -/
def normalizeName (value : String) : String :=
  ⟨jsTrimChars ((value.data.map Char.toUpper).filter (fun c => !isStrippedChar c))⟩

/-- `validateCandidateTicker` (analysis.ts:145–150): uppercase the
ticker and check membership in the matching market's universe set;
`UNKNOWN` is never verified. -/
def validateCandidateTicker (krSet usSet : String → Bool) (ticker market : String) : Bool :=
  let clean := jsToUpper ticker
  if market = "KR" then krSet clean
  else if market = "US" then usSet clean
  else false

/-- `resolveKrTickerByName` (analysis.ts:152–155): look the normalized
name up in the domestic name→ticker map; an empty key (falsy) resolves
to nothing. -/
def resolveKrTickerByName (nameMap : String → Option String) (name : String) : Option String :=
  let key := normalizeName name
  if key = "" then none else nameMap key

/-- The per-candidate body of `applyVerification` (analysis.ts:190–208). -/
def verifyOne (krSet usSet : String → Bool) (nameMap : String → Option String)
    (candidate : Candidate) : Candidate :=
  let verified := validateCandidateTicker krSet usSet candidate.ticker candidate.market
  if verified || candidate.market ≠ "KR" then { candidate with verified := verified }
  else
    match resolveKrTickerByName nameMap candidate.name with
    | some corrected => { candidate with ticker := corrected, market := "KR", verified := true }
    | none => { candidate with verified := false }

/-- `applyVerification` (analysis.ts:190–208), parameterised by the
reference universe (`krSet`, `usSet`, `nameMap`). -/
def applyVerification (krSet usSet : String → Bool) (nameMap : String → Option String)
    (candidates : List Candidate) : List Candidate :=
  candidates.map (verifyOne krSet usSet nameMap)

/-- `clampCandidates` (analysis.ts:210–211): truncate to the first 12. -/
def clampCandidates (candidates : List Candidate) : List Candidate :=
  candidates.take 12

/-! ## Concrete inputs used by witnesses and counterexamples -/

/-- Sixty daily bars over the consecutive calendar days 2024-01-01 …
2024-02-29 (no missing days), with strictly increasing closes
76 … 150, `high = close + 20`, `low = close - 20`, volume 100 except 10
on the last three days.  MA20 = 656/5 > MA60 = 537/5, the 10-day return
is exactly 20 % (momentum 10), RSI = 100, volume ratio 20/173 < 1/2,
ATR% = 4/15 > 1/10. -/
def c6Bars : List DailyBar :=
  [⟨"20240101", 76, 96, 56, 76, 100⟩,
   ⟨"20240102", 77, 97, 57, 77, 100⟩,
   ⟨"20240103", 78, 98, 58, 78, 100⟩,
   ⟨"20240104", 79, 99, 59, 79, 100⟩,
   ⟨"20240105", 80, 100, 60, 80, 100⟩,
   ⟨"20240106", 81, 101, 61, 81, 100⟩,
   ⟨"20240107", 82, 102, 62, 82, 100⟩,
   ⟨"20240108", 83, 103, 63, 83, 100⟩,
   ⟨"20240109", 84, 104, 64, 84, 100⟩,
   ⟨"20240110", 85, 105, 65, 85, 100⟩,
   ⟨"20240111", 86, 106, 66, 86, 100⟩,
   ⟨"20240112", 87, 107, 67, 87, 100⟩,
   ⟨"20240113", 88, 108, 68, 88, 100⟩,
   ⟨"20240114", 89, 109, 69, 89, 100⟩,
   ⟨"20240115", 90, 110, 70, 90, 100⟩,
   ⟨"20240116", 91, 111, 71, 91, 100⟩,
   ⟨"20240117", 92, 112, 72, 92, 100⟩,
   ⟨"20240118", 93, 113, 73, 93, 100⟩,
   ⟨"20240119", 94, 114, 74, 94, 100⟩,
   ⟨"20240120", 95, 115, 75, 95, 100⟩,
   ⟨"20240121", 96, 116, 76, 96, 100⟩,
   ⟨"20240122", 97, 117, 77, 97, 100⟩,
   ⟨"20240123", 98, 118, 78, 98, 100⟩,
   ⟨"20240124", 99, 119, 79, 99, 100⟩,
   ⟨"20240125", 100, 120, 80, 100, 100⟩,
   ⟨"20240126", 101, 121, 81, 101, 100⟩,
   ⟨"20240127", 102, 122, 82, 102, 100⟩,
   ⟨"20240128", 103, 123, 83, 103, 100⟩,
   ⟨"20240129", 104, 124, 84, 104, 100⟩,
   ⟨"20240130", 105, 125, 85, 105, 100⟩,
   ⟨"20240131", 106, 126, 86, 106, 100⟩,
   ⟨"20240201", 107, 127, 87, 107, 100⟩,
   ⟨"20240202", 108, 128, 88, 108, 100⟩,
   ⟨"20240203", 109, 129, 89, 109, 100⟩,
   ⟨"20240204", 110, 130, 90, 110, 100⟩,
   ⟨"20240205", 111, 131, 91, 111, 100⟩,
   ⟨"20240206", 112, 132, 92, 112, 100⟩,
   ⟨"20240207", 113, 133, 93, 113, 100⟩,
   ⟨"20240208", 114, 134, 94, 114, 100⟩,
   ⟨"20240209", 115, 135, 95, 115, 100⟩,
   ⟨"20240210", 116, 136, 96, 116, 100⟩,
   ⟨"20240211", 117, 137, 97, 117, 100⟩,
   ⟨"20240212", 118, 138, 98, 118, 100⟩,
   ⟨"20240213", 119, 139, 99, 119, 100⟩,
   ⟨"20240214", 120, 140, 100, 120, 100⟩,
   ⟨"20240215", 121, 141, 101, 121, 100⟩,
   ⟨"20240216", 122, 142, 102, 122, 100⟩,
   ⟨"20240217", 123, 143, 103, 123, 100⟩,
   ⟨"20240218", 124, 144, 104, 124, 100⟩,
   ⟨"20240219", 125, 145, 105, 125, 100⟩,
   ⟨"20240220", 130, 150, 110, 130, 100⟩,
   ⟨"20240221", 135, 155, 115, 135, 100⟩,
   ⟨"20240222", 140, 160, 120, 140, 100⟩,
   ⟨"20240223", 141, 161, 121, 141, 100⟩,
   ⟨"20240224", 142, 162, 122, 142, 100⟩,
   ⟨"20240225", 143, 163, 123, 143, 100⟩,
   ⟨"20240226", 144, 164, 124, 144, 100⟩,
   ⟨"20240227", 146, 166, 126, 146, 10⟩,
   ⟨"20240228", 148, 168, 128, 148, 10⟩,
   ⟨"20240229", 150, 170, 130, 150, 10⟩]

/-- Fifteen strictly increasing closes: enough for `computeRsi14`. -/
def c7Closes : List ℚ :=
  [100, 101, 102, 103, 104, 105, 106, 107, 108, 109, 110, 111, 112, 113, 114]

/-- A well-formed daily-bars row, repeated twice in `dupPayload`. -/
def dupRow : BarRow :=
  { stck_bsop_date := some "20240102", stck_oprc := some 1, stck_hgpr := some 1
    stck_lwpr := some 1, stck_clpr := some 1, acml_vol := some 1 }

/-- A successful daily-bars response whose `output2` repeats the same
row twice. -/
def dupPayload : BarsPayload := { rtCd := "0", output2 := [dupRow, dupRow] }

/-- A spot-quote endpoint that always answers with a non-success
status. -/
def failSpotEnv : String → SpotPayload :=
  fun _ => { rtCd := "1", msg1 := some "ERROR", stck_prpr := none
             prdy_ctrt := none, acml_vol := none }

/-- The empty quote cache. -/
def emptyQuoteCache : QuoteCache := fun _ => none

/-- A trivial quote used in scheduler examples. -/
def quoteA : Quote := { ticker := "A" }

/-- A second trivial quote used in scheduler examples. -/
def quoteC : Quote := { ticker := "C" }

/-- The cold credential-manager state: no cached token, no refresh in
flight. -/
def coldMgrState : MgrState :=
  { cachedToken := none, inFlightId := none, nextFlightId := 0, flightsStarted := 0 }

/-- A token endpoint whose first attempt always succeeds. -/
def tokenEnvOk : ℕ → ℕ → TokenResp :=
  fun _ _ => .ok (some "tok") (some 86400)

/-- A domestic universe containing no ticker at all. -/
def krSetNone : String → Bool := fun _ => false

/-- A foreign universe containing no ticker at all. -/
def usSetNone : String → Bool := fun _ => false

/-- A name map sending the normalized name `SAMSUNGELECTRONICS` to the
ticker `005930`. -/
def samsungNameMap : String → Option String :=
  fun s => if s = "SAMSUNGELECTRONICS" then some "005930" else none

/-- The candidate of the verifier example: the placeholder ticker
`000000` with the display name `Samsung Electronics`. -/
def samsungCandidate : Candidate :=
  { ticker := "000000", name := "Samsung Electronics", market := "KR"
    rationale := "example", score := 80, confidence := 7/10, verified := false
    stageTag := none, stageReason := none }

/-- A single daily bar used to build length-controlled bar lists. -/
def plainBar : DailyBar := ⟨"20240101", 1, 1, 1, 1, 1⟩


/-! # Helper lemmas -/

theorem scheduleTasks_length {E T : Type} (tasks : List (Except E T)) (alive : ℕ) :
    (scheduleTasks tasks alive).length = tasks.length := by
  induction tasks generalizing alive with
  | nil => rfl
  | cons t rest ih =>
    cases t <;> by_cases h : alive = 0 <;> simp [scheduleTasks, h, ih]

theorem scheduleTasks_all_ok {E T : Type} (values : List T) (alive : ℕ) (h : alive ≠ 0) :
    scheduleTasks (values.map (fun v => (Except.ok v : Except E T))) alive
      = values.map some := by
  induction values with
  | nil => rfl
  | cons v rest ih => simp [scheduleTasks, h, ih]

theorem scheduleTasks_few_errors {E T : Type} :
    ∀ (tasks : List (Except E T)) (alive : ℕ), countErrors tasks < alive →
      scheduleTasks tasks alive = tasks.map Except.toOption := by
  intro tasks
  induction tasks with
  | nil => intro alive _; rfl
  | cons t rest ih =>
    intro alive h
    match t with
    | .ok v =>
      rw [countErrors] at h
      rw [scheduleTasks, if_neg (by omega)]
      simpa [Except.toOption] using ih alive h
    | .error e =>
      rw [countErrors] at h
      rw [scheduleTasks, if_neg (by omega)]
      simpa [Except.toOption] using ih (alive - 1) (by omega)

theorem fetchOne_ticker (env : FetchEnv) (pair : TickerPair) :
    (fetchOne env pair).ticker = pair.original := by
  rw [fetchOne]
  cases env.thrown pair.normalized with
  | some msg => rfl
  | none => dsimp only; split <;> rfl

theorem forall2_map_self {α β : Type} (R : α → β → Prop) (f : α → β) (h : ∀ a, R a (f a)) :
    ∀ l : List α, List.Forall₂ R l (l.map f)
  | [] => List.Forall₂.nil
  | a :: l => List.Forall₂.cons (h a) (forall2_map_self R f h l)

theorem jsArray_of_all_some {T : Type} (slots : List (Option T))
    (h : ∀ x ∈ slots, x ≠ none) : jsArray slots = slots := by
  rw [jsArray]
  have hdrop : slots.reverse.dropWhile (fun slot => slot.isNone) = slots.reverse := by
    cases hrev : slots.reverse with
    | nil => rfl
    | cons a as =>
      rw [List.dropWhile_cons_of_neg]
      have ha : a ∈ slots := by
        rw [← List.mem_reverse, hrev]
        exact List.mem_cons_self a as
      cases a with
      | none => exact absurd rfl (h none ha)
      | some v => simp
  rw [hdrop, List.reverse_reverse]

theorem jsArray_map_some {T : Type} (l : List T) : jsArray (l.map some) = l.map some :=
  jsArray_of_all_some _ (by simp)

theorem jsArray_of_getLast_some {T : Type} (slots : List (Option T)) (v : T)
    (h : slots.getLast? = some (some v)) : jsArray slots = slots := by
  rw [jsArray]
  cases hrev : slots.reverse with
  | nil =>
    have : slots = [] := by simpa using congrArg List.reverse hrev
    subst this
    simp at h
  | cons a as =>
    have hhead : slots.reverse.head? = some a := by rw [hrev]; rfl
    rw [List.head?_reverse] at hhead
    have ha : a = some v := by rw [h] at hhead; exact (Option.some_inj.mp hhead).symm
    rw [List.dropWhile_cons_of_neg (by rw [ha]; simp), ← hrev, List.reverse_reverse]

/-! # Claims -/

/-- C1: for every input list of ticker strings (any oracle environment
and configuration), `fetchQuotes` returns a list related to the input
by `Forall₂` — hence of exactly the same length, with exactly one
`Quote` per input position — and each slot holds a `Quote` whose
`ticker` field is the corresponding original input string (not the
normalized form), even when the fetch for that ticker fails (the
`thrown` oracle and the note-only quotes cover total failure). -/
theorem fetchQuotes_one_quote_per_ticker (env : FetchEnv) (configured : Bool)
    (tickers : List String) :
    List.Forall₂ (fun t oq => ∃ q : Quote, oq = some q ∧ q.ticker = t)
      tickers (fetchQuotes env configured tickers) := by
  rw [fetchQuotes]
  by_cases hlen : tickers.length = 0
  · rw [if_pos hlen]
    cases tickers with
    | nil => exact .nil
    | cons a l => simp at hlen
  · rw [if_neg hlen]
    cases configured with
    | false =>
      simp only [Bool.not_false, if_pos]
      exact forall2_map_self _ _ (fun t => ⟨_, rfl, rfl⟩) tickers
    | true =>
      simp only [Bool.not_true, Bool.false_eq_true, if_neg]
      rw [runWithConcurrency]
      have hmap : tickers.map (fun t =>
            (Except.ok (fetchOne env ⟨t, normalizeTicker t⟩) : Except String Quote))
          = (tickers.map (fun t => fetchOne env ⟨t, normalizeTicker t⟩)).map
              (fun q => (Except.ok q : Except String Quote)) := by
        rw [List.map_map]; rfl
      rw [hmap, List.length_map, List.length_map,
        scheduleTasks_all_ok _ _ (by omega), jsArray_map_some, List.map_map]
      exact forall2_map_self _ _ (fun t => ⟨_, rfl, fetchOne_ticker env _⟩) tickers

/-- C4 counterexample: the scheduler itself does not catch a throwing
task.  A one-task batch whose task rejects with `"boom"` (violating
the fetcher's no-throw contract) yields the empty array — no `Quote`,
with or without an error note, in that task's output slot; with the
batch `[ok quoteA, throwing]` and two workers, the result is the
one-element array `[some quoteA]` — the other task's result survives,
but the throwing task's slot does not exist at all and the batch loses
same-cardinality with its input. -/
theorem runWithConcurrency_throw_counterexample :
    runWithConcurrency ([Except.error "boom"] : List (Except String Quote)) 2 = [] ∧
    runWithConcurrency [Except.ok quoteA, (Except.error "boom" : Except String Quote)] 2
      = [some quoteA] :=
  ⟨rfl, rfl⟩

/-- C4 (amended): `runWithConcurrency` does not catch-and-convert a
throwing task.  `Promise.allSettled` keeps the batch itself from
rejecting, and — provided fewer tasks throw than there are workers —
every task is claimed and every non-throwing task's value is assigned
to its own slot; but a throwing task's slot is left unset, never
filled with an error `Quote`: the returned JS array is the per-task
outcome list with its trailing unset slots dropped, so an interior
unset slot reads as `undefined` while a trailing one shortens the
array below one slot per task.  When the final task does not throw,
nothing is dropped and the array keeps exactly one slot per task. -/
theorem runWithConcurrency_throw_leaves_slot_unset {E T : Type}
    (tasks : List (Except E T)) (limit : ℕ)
    (h : countErrors tasks < min limit tasks.length) :
    runWithConcurrency tasks limit = jsArray (tasks.map Except.toOption) ∧
    (∀ v, tasks.getLast? = some (Except.ok v) →
      runWithConcurrency tasks limit = tasks.map Except.toOption) := by
  have hmain : runWithConcurrency tasks limit = jsArray (tasks.map Except.toOption) := by
    rw [runWithConcurrency, scheduleTasks_few_errors tasks _ h]
  refine ⟨hmain, fun v hlast => ?_⟩
  rw [hmain]
  apply jsArray_of_getLast_some _ v
  rw [List.getLast?_map, hlast]
  rfl

/-- Witness for C4's amended theorem at a concrete three-task batch
with two workers: the middle task throws; its slot reads as `none`,
the other two slots hold their quotes, and since the final task
succeeds the array keeps all three slots. -/
theorem runWithConcurrency_throw_leaves_slot_unset_witness :
    runWithConcurrency [Except.ok quoteA, Except.error "boom", Except.ok quoteC] 2 =
      [some quoteA, none, some quoteC] :=
  (runWithConcurrency_throw_leaves_slot_unset
    [Except.ok quoteA, Except.error "boom", Except.ok quoteC] 2 (by decide)).2
    quoteC rfl

/-- C2: the technical snapshot is tiered by bar count — for at least 60
bars, `attachTechnical` attaches the full `computeMarketScore` snapshot
(whose indicator fields are the computed MA20/MA60/RSI/volume
ratio/ATR%); for 20–59 bars it attaches the degraded default with
`marketScore = 50` and every other field absent; below 20 bars no
technical snapshot is attached at all. -/
theorem technical_snapshot_tiers (bars : List DailyBar) :
    (60 ≤ bars.length →
      attachTechnical bars = some (computeMarketScore bars) ∧
      (computeMarketScore bars).rsi = computeRsi14 (bars.map (fun b => b.close)) ∧
      (computeMarketScore bars).ma20 = sma (bars.map (fun b => b.close)) 20 ∧
      (computeMarketScore bars).ma60 = sma (bars.map (fun b => b.close)) 60 ∧
      (computeMarketScore bars).volRatio = volRatioOf (bars.map (fun b => b.volume)) ∧
      (computeMarketScore bars).atrPct = computeAtrPct bars) ∧
    (20 ≤ bars.length → bars.length < 60 →
      attachTechnical bars = some { marketScore := 50, rsi := none, ma20 := none
                                    ma60 := none, volRatio := none, atrPct := none }) ∧
    (bars.length < 20 → attachTechnical bars = none) := by
  refine ⟨fun h60 => ?_, fun h20 h60 => ?_, fun h20 => ?_⟩
  · refine ⟨by rw [attachTechnical, if_pos (by omega)], ?_, ?_, ?_, ?_, ?_⟩ <;>
      simp only [computeMarketScore, if_neg (show ¬bars.length < 60 by omega)]
  · rw [attachTechnical, if_pos (by omega), computeMarketScore, if_pos (by omega)]
  · rw [attachTechnical, if_neg (by omega)]

/-- C3 counterexample: with a spot-quote endpoint answering a
non-success status, a cold-cache fetch yields the ticker+note quote,
but the failure quote is NOT stored in the quote cache (the entry
stays `none`), and an immediately repeated fetch (same `Date.now()`,
so well within any TTL) hits the endpoint again (one more call instead
of the zero calls the claim asserts). -/
theorem domestic_quote_failure_counterexample :
    (fetchDomesticQuote failSpotEnv 0 emptyQuoteCache "005930").1 =
      { ticker := "005930", note := some "ERROR" } ∧
    (fetchDomesticQuote failSpotEnv 0 emptyQuoteCache "005930").2.1 "005930" = none ∧
    (fetchDomesticQuote failSpotEnv 0
        (fetchDomesticQuote failSpotEnv 0 emptyQuoteCache "005930").2.1 "005930").2.2 = 1 :=
  ⟨rfl, rfl, rfl⟩

/-- C3 (amended): a non-success status from the spot-quote endpoint
yields a Quote containing only the ticker and a note (no price,
change-percent or volume), but that failure Quote is NOT stored in the
quote cache — the cache is returned unchanged — so a repeated fetch
within the TTL calls the endpoint again. -/
theorem domestic_quote_failure_not_cached (env : String → SpotPayload) (t : ℚ)
    (cache : QuoteCache) (ticker : String)
    (hmiss : cache ticker = none) (hfail : (env ticker).rtCd ≠ "0") :
    fetchDomesticQuote env t cache ticker =
      ({ ticker := ticker
         note := some (jsOrString (env ticker).msg1 "Domestic quote failed") }, cache, 1) ∧
    (fetchDomesticQuote env t (fetchDomesticQuote env t cache ticker).2.1 ticker).2.2 = 1 := by
  have h1 : fetchDomesticQuote env t cache ticker =
      ({ ticker := ticker
         note := some (jsOrString (env ticker).msg1 "Domestic quote failed") }, cache, 1) := by
    rw [fetchDomesticQuote, hmiss, fetchDomesticQuoteFresh, if_pos hfail]
  refine ⟨h1, ?_⟩
  rw [h1, h1]

/-- Witness for C3's amended theorem: the concrete failing endpoint
and cold cache; the second fetch makes one more endpoint call. -/
theorem domestic_quote_failure_not_cached_witness :
    fetchDomesticQuote failSpotEnv 0 emptyQuoteCache "005930" =
      ({ ticker := "005930", note := some "ERROR" }, emptyQuoteCache, 1) ∧
    (fetchDomesticQuote failSpotEnv 0
        (fetchDomesticQuote failSpotEnv 0 emptyQuoteCache "005930").2.1 "005930").2.2 = 1 :=
  domestic_quote_failure_not_cached failSpotEnv 0 emptyQuoteCache "005930" rfl (by decide)

/-- Frame property of the per-candidate verifier body: only `ticker`,
`market` and `verified` can change. -/
theorem verifyOne_frame (krSet usSet : String → Bool) (nameMap : String → Option String)
    (c : Candidate) :
    (verifyOne krSet usSet nameMap c).name = c.name ∧
    (verifyOne krSet usSet nameMap c).rationale = c.rationale ∧
    (verifyOne krSet usSet nameMap c).score = c.score ∧
    (verifyOne krSet usSet nameMap c).confidence = c.confidence ∧
    (verifyOne krSet usSet nameMap c).stageTag = c.stageTag ∧
    (verifyOne krSet usSet nameMap c).stageReason = c.stageReason := by
  rw [verifyOne]
  split
  · exact ⟨rfl, rfl, rfl, rfl, rfl, rfl⟩
  · split <;> exact ⟨rfl, rfl, rfl, rfl, rfl, rfl⟩

/-- C10: the candidate verifier modifies only `ticker`, `market` and
`verified`: the output of `applyVerification` (which is what
`clampCandidates` later truncates to 12) is `Forall₂`-related to the
input — same length, same order — and every candidate's `name`,
`rationale`, `score`, `confidence`, `stageTag` and `stageReason` are
identical to the input candidate's at the same position. -/
theorem applyVerification_frame (krSet usSet : String → Bool)
    (nameMap : String → Option String) (candidates : List Candidate) :
    List.Forall₂ (fun c c' => c'.name = c.name ∧ c'.rationale = c.rationale ∧
        c'.score = c.score ∧ c'.confidence = c.confidence ∧
        c'.stageTag = c.stageTag ∧ c'.stageReason = c.stageReason)
      candidates (applyVerification krSet usSet nameMap candidates) := by
  rw [applyVerification]
  exact forall2_map_self _ (verifyOne krSet usSet nameMap)
    (fun c => verifyOne_frame krSet usSet nameMap c) candidates

/-- C5: a domestic candidate whose ticker fails direct membership is
resolved through the normalized display name: on a hit the ticker is
rewritten to the resolved value, the market is forced to `KR`
(`DOMESTIC`) and `verified` is set to `true`; on a miss the ticker is
left unchanged and `verified` is `false`. -/
theorem kr_name_fallback (krSet usSet : String → Bool) (nameMap : String → Option String)
    (c : Candidate) (hm : c.market = "KR")
    (hv : validateCandidateTicker krSet usSet c.ticker c.market = false) :
    (∀ resolved, resolveKrTickerByName nameMap c.name = some resolved →
        verifyOne krSet usSet nameMap c
          = { c with ticker := resolved, market := "KR", verified := true }) ∧
    (resolveKrTickerByName nameMap c.name = none →
        verifyOne krSet usSet nameMap c = { c with verified := false }) := by
  rw [hm] at hv
  constructor
  · intro resolved hres
    simp [verifyOne, hv, hm, hres]
  · intro hres
    simp [verifyOne, hv, hm, hres]

/-- Witness for C5 at the spec's example: `{ticker: "000000", name:
"Samsung Electronics", market: KR}` with `000000` absent from the
domestic set and `SAMSUNGELECTRONICS` mapping to `005930` yields
`{ticker: "005930", market: KR, verified: true}`. -/
theorem kr_name_fallback_witness :
    verifyOne krSetNone usSetNone samsungNameMap samsungCandidate
      = { samsungCandidate with ticker := "005930", market := "KR", verified := true } :=
  (kr_name_fallback krSetNone usSetNone samsungNameMap samsungCandidate rfl rfl).1
    "005930" (by decide)

/-- Witness for C2 at concrete bar lists of length 60, 30 and 5. -/
theorem technical_snapshot_tiers_witness :
    attachTechnical c6Bars = some (computeMarketScore c6Bars) ∧
    attachTechnical (List.replicate 30 plainBar) =
      some { marketScore := 50, rsi := none, ma20 := none, ma60 := none
             volRatio := none, atrPct := none } ∧
    attachTechnical (List.replicate 5 plainBar) = none :=
  ⟨((technical_snapshot_tiers c6Bars).1 (by decide)).1,
   (technical_snapshot_tiers (List.replicate 30 plainBar)).2.1 (by decide) (by decide),
   (technical_snapshot_tiers (List.replicate 5 plainBar)).2.2 (by decide)⟩

theorem list_sum_map_nonneg (l : List ℚ) (f : ℚ → ℚ) (hf : ∀ x, 0 ≤ f x) :
    0 ≤ (l.map f).sum :=
  List.sum_nonneg (fun y hy => by obtain ⟨x, -, rfl⟩ := List.mem_map.mp hy; exact hf x)

theorem list_sum_map_zero_iff (l : List ℚ) (f : ℚ → ℚ) (hf : ∀ x, 0 ≤ f x) :
    (l.map f).sum = 0 ↔ ∀ x ∈ l, f x = 0 := by
  induction l with
  | nil => simp
  | cons a l ih =>
    simp only [List.map_cons, List.sum_cons, List.mem_cons]
    have ha := hf a
    have hs := list_sum_map_nonneg l f hf
    constructor
    · intro h
      have ha0 : f a = 0 := by linarith
      have hs0 : (l.map f).sum = 0 := by linarith
      intro x hx
      rcases hx with rfl | hx
      · exact ha0
      · exact (ih.mp hs0) x hx
    · intro h
      have ha0 : f a = 0 := h a (Or.inl rfl)
      have hs0 : (l.map f).sum = 0 := ih.mpr (fun x hx => h x (Or.inr hx))
      rw [ha0, hs0, add_zero]

theorem loss_term_zero_iff (c : ℚ) : (if c < 0 then -c else 0) = 0 ↔ 0 ≤ c := by
  split
  · constructor <;> intro h <;> linarith
  · constructor <;> intro _ <;> [linarith; rfl]

/-- C7: for every list of at least 15 closes, RSI14 is defined and lies
within [0, 100], and it equals 100 exactly when all of the last 14
day-over-day changes are non-negative. -/
theorem rsi14_bounds (closes : List ℚ) (h : 15 ≤ closes.length) :
    ∃ r, computeRsi14 closes = some r ∧ 0 ≤ r ∧ r ≤ 100 ∧
      (r = 100 ↔ ∀ c ∈ lastChanges closes, 0 ≤ c) := by
  rw [computeRsi14, if_neg (by omega)]
  have hloss0 : 0 ≤ (List.map (fun c => if c < 0 then -c else 0) (lastChanges closes)).sum :=
    list_sum_map_nonneg _ _ (fun x => by split <;> linarith)
  have hgain0 : 0 ≤ (List.map (fun c => if 0 ≤ c then c else 0) (lastChanges closes)).sum :=
    list_sum_map_nonneg _ _ (fun x => by split <;> linarith)
  have hiff : (List.map (fun c => if c < 0 then -c else 0) (lastChanges closes)).sum = 0
      ↔ ∀ c ∈ lastChanges closes, 0 ≤ c := by
    rw [list_sum_map_zero_iff _ _ (fun x => by split <;> linarith)]
    exact ⟨fun hz c hc => (loss_term_zero_iff c).mp (hz c hc),
           fun hz c hc => (loss_term_zero_iff c).mpr (hz c hc)⟩
  by_cases hz : (List.map (fun c => if c < 0 then -c else 0) (lastChanges closes)).sum / 14 = 0
  · rw [if_pos hz]
    refine ⟨100, rfl, by norm_num, le_refl _, ?_⟩
    have : (List.map (fun c => if c < 0 then -c else 0) (lastChanges closes)).sum = 0 := by
      have := hz
      field_simp at this
      exact this
    simpa [this] using hiff
  · rw [if_neg hz]
    have hlossne : (List.map (fun c => if c < 0 then -c else 0) (lastChanges closes)).sum ≠ 0 := by
      intro h0
      exact hz (by rw [h0]; norm_num)
    have hlosspos : 0 < (List.map (fun c => if c < 0 then -c else 0) (lastChanges closes)).sum :=
      lt_of_le_of_ne hloss0 (Ne.symm hlossne)
    set g := (List.map (fun c => if 0 ≤ c then c else 0) (lastChanges closes)).sum with hgdef
    set l := (List.map (fun c => if c < 0 then -c else 0) (lastChanges closes)).sum with hldef
    have hrs : 0 ≤ g / 14 / (l / 14) := by positivity
    have hden : (1 : ℚ) ≤ 1 + g / 14 / (l / 14) := by linarith
    have hfrac_pos : 0 < 100 / (1 + g / 14 / (l / 14)) := by positivity
    have hfrac_le : 100 / (1 + g / 14 / (l / 14)) ≤ 100 := by
      apply div_le_self <;> linarith
    refine ⟨100 - 100 / (1 + g / 14 / (l / 14)), rfl, by linarith, by linarith, ?_⟩
    constructor
    · intro habs
      exfalso
      have : 100 / (1 + g / 14 / (l / 14)) = 0 := by linarith
      exact absurd this (ne_of_gt hfrac_pos)
    · intro hall
      exfalso
      exact hlossne (hiff.mpr hall)

/-- Witness for C7: fifteen strictly increasing closes give RSI
exactly 100. -/
theorem rsi14_bounds_witness : computeRsi14 c7Closes = some 100 := by
  obtain ⟨r, hr, -, -, hiff⟩ := rsi14_bounds c7Closes (by decide)
  have hall : ∀ c ∈ lastChanges c7Closes, 0 ≤ c := by
    norm_num [lastChanges, jsDiffs, c7Closes]
  rw [hr, hiff.mpr hall]

theorem lexLe_total : ∀ (a b : List Char), lexLe a b = true ∨ lexLe b a = true := by
  intro a
  induction a with
  | nil => intro b; left; rfl
  | cons x xs ih =>
    intro b
    cases b with
    | nil => right; rfl
    | cons y ys =>
      by_cases hxy : x = y
      · subst hxy
        rcases ih ys with h | h
        · left; simpa [lexLe] using h
        · right; simpa [lexLe] using h
      · rcases lt_or_gt_of_ne hxy with h | h
        · left; simp [lexLe, hxy, h]
        · right; simp [lexLe, Ne.symm hxy, h]

theorem lexLe_trans : ∀ {a b c : List Char},
    lexLe a b = true → lexLe b c = true → lexLe a c = true := by
  intro a
  induction a with
  | nil => intro b c _ _; rfl
  | cons x xs ih =>
    intro b c hab hbc
    cases b with
    | nil => simp [lexLe] at hab
    | cons y ys =>
      cases c with
      | nil => simp [lexLe] at hbc
      | cons z zs =>
        rw [lexLe] at hab hbc ⊢
        by_cases hxy : x = y
        · subst hxy
          rw [if_pos rfl] at hab
          by_cases hyz : x = z
          · subst hyz
            rw [if_pos rfl] at hbc ⊢
            exact ih hab hbc
          · rw [if_neg hyz] at hbc ⊢
            exact hbc
        · rw [if_neg hxy] at hab
          have hxy' : x < y := by simpa using hab
          by_cases hyz : y = z
          · subst hyz
            rw [if_neg hxy]
            simpa using hxy'
          · rw [if_neg hyz] at hbc
            have hyz' : y < z := by simpa using hbc
            have hxz : x < z := lt_trans hxy' hyz'
            rw [if_neg (ne_of_lt hxz)]
            simpa using hxz

theorem dateLe_total (a b : String) : dateLe a b = true ∨ dateLe b a = true :=
  lexLe_total a.data b.data

theorem dateLe_trans {a b c : String} :
    dateLe a b = true → dateLe b c = true → dateLe a c = true :=
  lexLe_trans

theorem mem_insertByDate {x b : DailyBar} {l : List DailyBar} :
    x ∈ insertByDate b l ↔ x = b ∨ x ∈ l := by
  induction l with
  | nil => simp [insertByDate]
  | cons y ys ih =>
    rw [insertByDate]
    split
    · simp
    · rw [List.mem_cons, ih, List.mem_cons]
      tauto

theorem pairwise_insertByDate {l : List DailyBar} (b : DailyBar)
    (h : l.Pairwise (fun a c => dateLe a.date c.date = true)) :
    (insertByDate b l).Pairwise (fun a c => dateLe a.date c.date = true) := by
  induction l with
  | nil => simp [insertByDate]
  | cons x xs ih =>
    rw [List.pairwise_cons] at h
    obtain ⟨hx, hxs⟩ := h
    rw [insertByDate]
    split
    · rename_i hbx
      refine List.pairwise_cons.mpr ⟨?_, List.pairwise_cons.mpr ⟨hx, hxs⟩⟩
      intro a ha
      rcases List.mem_cons.mp ha with rfl | ha
      · exact hbx
      · exact dateLe_trans hbx (hx a ha)
    · rename_i hbx
      have hxb : dateLe x.date b.date = true :=
        (dateLe_total b.date x.date).resolve_left (by simpa using hbx)
      refine List.pairwise_cons.mpr ⟨?_, ih hxs⟩
      intro a ha
      rcases mem_insertByDate.mp ha with rfl | ha
      · exact hxb
      · exact hx a ha

theorem mem_sortByDate {x : DailyBar} : ∀ {l : List DailyBar}, x ∈ sortByDate l ↔ x ∈ l := by
  intro l
  induction l with
  | nil => simp [sortByDate]
  | cons y ys ih =>
    rw [sortByDate, mem_insertByDate, ih, List.mem_cons]

theorem pairwise_sortByDate (l : List DailyBar) :
    (sortByDate l).Pairwise (fun a c => dateLe a.date c.date = true) := by
  induction l with
  | nil => exact List.Pairwise.nil
  | cons y ys ih => exact pairwise_insertByDate y ih

/-- C8 (amended): the bar sequence produced from an upstream daily-bars
response is ordered ascending by date and contains no bar with a
non-positive close or an empty date (such rows are discarded); the
sequence is however NOT deduplicated (see the counterexample). -/
theorem daily_bars_sorted_and_filtered (payload : BarsPayload) :
    (fetchDomesticDailyBars payload).Pairwise
      (fun a b => dateLe a.date b.date = true) ∧
    ∀ bar ∈ fetchDomesticDailyBars payload, bar.date ≠ "" ∧ 0 < bar.close := by
  rw [fetchDomesticDailyBars]
  split
  · exact ⟨List.Pairwise.nil, by simp⟩
  · refine ⟨pairwise_sortByDate _, ?_⟩
    intro bar hbar
    have hmem := mem_sortByDate.mp hbar
    have hfil := List.mem_filter.mp hmem
    simpa using hfil.2

/-- C8 counterexample: a successful response repeating the same
well-formed row twice yields a bar list containing that bar twice —
the sequence is not deduplicated. -/
theorem daily_bars_duplicates_counterexample :
    fetchDomesticDailyBars dupPayload =
      [⟨"20240102", 1, 1, 1, 1, 1⟩, ⟨"20240102", 1, 1, 1, 1, 1⟩] ∧
    ¬ (fetchDomesticDailyBars dupPayload).Nodup := by
  have h : fetchDomesticDailyBars dupPayload =
      [⟨"20240102", 1, 1, 1, 1, 1⟩, ⟨"20240102", 1, 1, 1, 1, 1⟩] := by
    norm_num [fetchDomesticDailyBars, dupPayload, dupRow, rowToBar, sortByDate,
      insertByDate, jsOrString, dateLe, lexLe]
    intro hcontra
    exact hcontra.symm
  refine ⟨h, ?_⟩
  rw [h]
  simp

theorem iterEnters_joined (t : ℚ) (s : MgrState) (f : ℕ)
    (hc : s.cachedToken = none) (hf : s.inFlightId = some f) :
    ∀ k : ℕ, iterEnters t s k = (s, List.replicate k (.joined f)) := by
  intro k
  have hstep : enterStep t s = (s, .joined f) := by
    simp only [enterStep, hc, startOrJoinToken, hf]
  induction k with
  | zero => rfl
  | succ n ih =>
    rw [iterEnters, hstep]
    simp [ih, List.replicate_succ]

theorem runTokenAttempts_calls (env1 : ℕ → TokenResp) (t : ℚ) :
    1 ≤ (runTokenAttempts env1 t).2 ∧ (runTokenAttempts env1 t).2 ≤ 2 ∧
    (∀ token expiresIn, env1 0 = .ok (some token) expiresIn →
      (runTokenAttempts env1 t).2 = 1) := by
  cases h0 : env1 0 with
  | ok tok e =>
    cases tok with
    | some token => refine ⟨?_, ?_, ?_⟩ <;> simp [runTokenAttempts, h0]
    | none =>
      cases h1 : env1 1 with
      | ok tok1 e1 =>
        cases tok1 <;> (refine ⟨?_, ?_, ?_⟩ <;> simp [runTokenAttempts, h0, h1])
      | err => refine ⟨?_, ?_, ?_⟩ <;> simp [runTokenAttempts, h0, h1]
  | err =>
    cases h1 : env1 1 with
    | ok tok1 e1 =>
      cases tok1 <;> (refine ⟨?_, ?_, ?_⟩ <;> simp [runTokenAttempts, h0, h1])
    | err => refine ⟨?_, ?_, ?_⟩ <;> simp [runTokenAttempts, h0, h1]

/-- C9: token refresh is single-flight.  From a cold state (no cached
token, no refresh in flight), any number `n ≥ 1` of callers whose
synchronous prefixes run before the refresh settles start exactly one
refresh flight and all join that same flight, so on settlement all
receive the same resulting token or the same failure
(`resolveStep` returns the one shared outcome).  The single flight
issues one or two sequential endpoint attempts — exactly one when the
first attempt succeeds — so at most one upstream token request is
outstanding at any time.  A caller that sees a cached token with
remaining validity returns it immediately, starting no flight and
making zero upstream calls (the state is unchanged). -/
theorem token_refresh_single_flight (env : ℕ → ℕ → TokenResp) (t : ℚ)
    (s0 : MgrState) (n : ℕ)
    (hcold : s0.cachedToken = none) (hnf : s0.inFlightId = none) (hn : 1 ≤ n) :
    (iterEnters t s0 n).1.flightsStarted = s0.flightsStarted + 1 ∧
    (iterEnters t s0 n).2 = List.replicate n (.joined s0.nextFlightId) ∧
    (resolveStep env t (iterEnters t s0 n).1).2
      = some (runTokenAttempts (env s0.nextFlightId) t) ∧
    1 ≤ (runTokenAttempts (env s0.nextFlightId) t).2 ∧
    (runTokenAttempts (env s0.nextFlightId) t).2 ≤ 2 ∧
    (∀ token expiresIn, env s0.nextFlightId 0 = .ok (some token) expiresIn →
      (runTokenAttempts (env s0.nextFlightId) t).2 = 1) ∧
    (∀ s entry, s.cachedToken = some entry → t < entry.expiresAt →
      enterStep t s = (s, .immediate entry.token)) := by
  obtain ⟨m, rfl⟩ : ∃ m, n = m + 1 := ⟨n - 1, by omega⟩
  have hstep : enterStep t s0 =
      ({ s0 with inFlightId := some s0.nextFlightId
                 nextFlightId := s0.nextFlightId + 1
                 flightsStarted := s0.flightsStarted + 1 }, .joined s0.nextFlightId) := by
    simp only [enterStep, hcold, startOrJoinToken, hnf]
  have hrest := iterEnters_joined t
    { s0 with inFlightId := some s0.nextFlightId
              nextFlightId := s0.nextFlightId + 1
              flightsStarted := s0.flightsStarted + 1 }
    s0.nextFlightId hcold rfl m
  have hiter : iterEnters t s0 (m + 1) =
      ({ s0 with inFlightId := some s0.nextFlightId
                 nextFlightId := s0.nextFlightId + 1
                 flightsStarted := s0.flightsStarted + 1 },
        List.replicate (m + 1) (.joined s0.nextFlightId)) := by
    rw [iterEnters, hstep]
    simp [hrest, List.replicate_succ]
  obtain ⟨hc1, hc2, hc3⟩ := runTokenAttempts_calls (env s0.nextFlightId) t
  refine ⟨by rw [hiter], by rw [hiter], ?_, hc1, hc2, hc3, ?_⟩
  · rw [hiter]
    simp only [resolveStep]
  · intro s entry hs ht
    simp only [enterStep, hs, if_pos ht]

/-- Witness for C9: three concurrent cold callers at time 0 start
exactly one flight (id 0) and all join it; with a first-attempt
success the flight makes exactly one endpoint call; a caller seeing a
valid cached token gets it back immediately with the state (hence the
call count) unchanged. -/
theorem token_refresh_single_flight_witness :
    (iterEnters 0 coldMgrState 3).1.flightsStarted = 1 ∧
    (iterEnters 0 coldMgrState 3).2 = List.replicate 3 (.joined 0) ∧
    (resolveStep tokenEnvOk 0 (iterEnters 0 coldMgrState 3).1).2
      = some (runTokenAttempts (tokenEnvOk 0) 0) ∧
    (runTokenAttempts (tokenEnvOk 0) 0).2 = 1 ∧
    enterStep 0 { cachedToken := some ⟨"cached", 100⟩, inFlightId := none
                  nextFlightId := 5, flightsStarted := 7 }
      = ({ cachedToken := some ⟨"cached", 100⟩, inFlightId := none
           nextFlightId := 5, flightsStarted := 7 }, .immediate "cached") := by
  have h := token_refresh_single_flight tokenEnvOk 0 coldMgrState 3 rfl rfl (by norm_num)
  exact ⟨h.1, h.2.1, h.2.2.1, h.2.2.2.2.2.1 "tok" (some 86400) rfl,
    h.2.2.2.2.2.2 _ ⟨"cached", 100⟩ rfl (by norm_num)⟩

theorem list_sum_le_length_mul (l : List ℚ) (B : ℚ) (h : ∀ x ∈ l, x ≤ B) :
    l.sum ≤ l.length * B := by
  induction l with
  | nil => simp
  | cons a l ih =>
    simp only [List.sum_cons, List.length_cons]
    have ha := h a (List.mem_cons_self a l)
    have hl := ih (fun x hx => h x (List.mem_cons_of_mem a hx))
    push_cast
    have hexp : ((l.length : ℚ) + 1) * B = (l.length : ℚ) * B + B := by ring
    rw [hexp]
    linarith

theorem list_sum_lt_length_mul (l : List ℚ) (B : ℚ) (h : ∀ x ∈ l, x ≤ B)
    (hx : ∃ x ∈ l, x < B) : l.sum < l.length * B := by
  induction l with
  | nil => simp at hx
  | cons a l ih =>
    simp only [List.sum_cons, List.length_cons]
    push_cast
    have hexp : ((l.length : ℚ) + 1) * B = (l.length : ℚ) * B + B := by ring
    rw [hexp]
    rcases hx with ⟨x, hxm, hxlt⟩
    rcases List.mem_cons.mp hxm with rfl | hxm
    · have hl := list_sum_le_length_mul l B (fun y hy => h y (List.mem_cons_of_mem _ hy))
      linarith
    · have ha := h a (List.mem_cons_self a l)
      have hl := ih (fun y hy => h y (List.mem_cons_of_mem _ hy)) ⟨x, hxm, hxlt⟩
      linarith

/-- C6 (amended): for every bar sequence of exactly 60 days with
strictly increasing closes and MA20 > MA60, the trend sub-score — the
`scoreTrend` of `computeMarketScore`, evaluated at the same last close,
MA20 and MA60 — is exactly +10.  (The final `marketScore` need not
exceed 50: see the counterexample, where it is exactly 50.) -/
theorem increasing_sixty_bars_trend (bars : List DailyBar) (m20 m60 : ℚ)
    (hlen : bars.length = 60)
    (hchain : (bars.map (fun b => b.close)).Chain' (· < ·))
    (h20 : sma (bars.map (fun b => b.close)) 20 = some m20)
    (h60 : sma (bars.map (fun b => b.close)) 60 = some m60)
    (hgt : m60 < m20) :
    trendScore ((bars.map (fun b => b.close)).getD
        ((bars.map (fun b => b.close)).length - 1) 0)
      (sma (bars.map (fun b => b.close)) 20)
      (sma (bars.map (fun b => b.close)) 60) = 10 := by
  set closes := bars.map (fun b => b.close) with hcloses
  have hclen : closes.length = 60 := by rw [hcloses, List.length_map, hlen]
  have h59 : 59 < closes.length := by omega
  have hidx : closes.length - 1 = 59 := by omega
  have hm20 : m20 = (closes.drop 40).sum / 20 := by
    rw [sma, if_neg (by omega), hclen] at h20
    norm_num at h20
    exact h20.symm
  have hpair : closes.Pairwise (· < ·) := List.chain'_iff_pairwise.mp hchain
  have hpt : (closes.drop 40).Pairwise (· < ·) :=
    List.Pairwise.sublist (List.drop_sublist 40 closes) hpair
  have htlen : (closes.drop 40).length = 20 := by
    rw [List.length_drop, hclen]
  have ht19lt : 19 < (closes.drop 40).length := by omega
  have ht19 : (closes.drop 40)[19] = closes[59] := by
    rw [List.getElem_drop closes]
  have hle : ∀ x ∈ closes.drop 40, x ≤ (closes.drop 40)[19] := by
    intro x hxm
    obtain ⟨i, hi, rfl⟩ := List.mem_iff_getElem.mp hxm
    by_cases hi19 : i = 19
    · subst hi19; exact le_refl _
    · exact le_of_lt
        (List.pairwise_iff_getElem.mp hpt i 19 hi ht19lt (by omega))
  have hex : ∃ x ∈ closes.drop 40, x < (closes.drop 40)[19] := by
    have h0lt : 0 < (closes.drop 40).length := by omega
    refine ⟨(closes.drop 40).get ⟨0, h0lt⟩, List.get_mem _ _ h0lt, ?_⟩
    exact List.pairwise_iff_getElem.mp hpt 0 19 h0lt ht19lt (by omega)
  have hsum : (closes.drop 40).sum < 20 * closes[59] := by
    have h := list_sum_lt_length_mul (closes.drop 40) ((closes.drop 40)[19]) hle hex
    rw [htlen] at h
    norm_num at h
    exact h
  have hlast : closes.getD (closes.length - 1) 0 = closes[59] := by
    rw [hidx]
    exact List.getD_eq_getElem closes 0 h59
  have hm20lt : m20 < closes.getD (closes.length - 1) 0 := by
    rw [hlast, hm20]
    calc (closes.drop 40).sum / 20
        < (20 * closes[59]) / 20 :=
          (div_lt_div_iff_of_pos_right (by norm_num : (0:ℚ) < 20)).mpr hsum
      _ = closes[59] := by ring
  rw [trendScore, h20, h60, trendScoreMa20, trendScoreCross,
    if_pos hm20lt, if_pos hgt]
  norm_num

/-- Witness for C6's amended theorem at the concrete 60-bar list
`c6Bars`. -/
theorem increasing_sixty_bars_trend_witness :
    trendScore ((c6Bars.map (fun b => b.close)).getD
        ((c6Bars.map (fun b => b.close)).length - 1) 0)
      (sma (c6Bars.map (fun b => b.close)) 20)
      (sma (c6Bars.map (fun b => b.close)) 60) = 10 :=
  increasing_sixty_bars_trend c6Bars (656/5) (537/5) (by decide)
    (by norm_num [c6Bars, List.chain'_cons])
    (by norm_num [sma, c6Bars]) (by norm_num [sma, c6Bars]) (by norm_num)

/-- C6 counterexample: `c6Bars` satisfies all the claim's hypotheses —
exactly 60 bars over consecutive calendar days (2024-01-01 …
2024-02-29, no missing days), strictly increasing closes and
MA20 = 656/5 > MA60 = 537/5 — yet its composite `marketScore` is
exactly 50, not strictly greater than 50: the strictly increasing
closes force RSI = 100 and its −7 penalty, the volume ratio 20/173
earns −6 and the ATR% of 4/15 earns −7, while trend (+10) and momentum
(+10) leave the raw sum at 0. -/
theorem increasing_sixty_bars_score_counterexample :
    c6Bars.length = 60 ∧
    (c6Bars.map (fun b => b.close)).Chain' (· < ·) ∧
    sma (c6Bars.map (fun b => b.close)) 20 = some (656/5) ∧
    sma (c6Bars.map (fun b => b.close)) 60 = some (537/5) ∧
    ((537 : ℚ)/5) < 656/5 ∧
    (computeMarketScore c6Bars).marketScore = 50 ∧
    ¬ 50 < (computeMarketScore c6Bars).marketScore := by
  have hscore : (computeMarketScore c6Bars).marketScore = 50 := by
    norm_num [computeMarketScore, trendScore, trendScoreMa20, trendScoreCross, momentumScore,
      volRatioOf, avgVolume3, avgVolume20, volumeScore, rsiPenalty, volatilityPenalty,
      computeRsi14, lastChanges, jsDiffs, computeAtrPct, trSum, trSum.trSumFrom, trueRange,
      sma, jsRound, ratFloor, c6Bars, List.getLastD]
  refine ⟨by decide, by norm_num [c6Bars, List.chain'_cons], by norm_num [sma, c6Bars],
    by norm_num [sma, c6Bars], by norm_num, hscore, by rw [hscore]; norm_num⟩

/-- Witness for C8's amended theorem at a concrete one-row response:
the produced list is sorted and its bar has a non-empty date and a
positive close. -/
theorem daily_bars_sorted_and_filtered_witness :
    (fetchDomesticDailyBars { rtCd := "0", output2 := [dupRow] }).Pairwise
      (fun a b => dateLe a.date b.date = true) ∧
    ((⟨"20240102", 1, 1, 1, 1, 1⟩ : DailyBar).date ≠ "" ∧
      0 < (⟨"20240102", 1, 1, 1, 1, 1⟩ : DailyBar).close) := by
  have h := daily_bars_sorted_and_filtered { rtCd := "0", output2 := [dupRow] }
  refine ⟨h.1, h.2 _ ?_⟩
  have heval : fetchDomesticDailyBars { rtCd := "0", output2 := [dupRow] }
      = [⟨"20240102", 1, 1, 1, 1, 1⟩] := by
    norm_num [fetchDomesticDailyBars, dupRow, rowToBar, sortByDate, insertByDate, jsOrString]
    intro hcontra
    exact hcontra.symm
  rw [heval]
  exact List.mem_singleton.mpr rfl
